import Mathlib

/-! RayComposer device API: the return codes, the point format and the demo program.

A shallow embedding of `api-include/rcdev.h` (the `RCReturnCode` enumeration,
`RCAPI_VERSION`, `struct RCPoint`) and of `api-demo/demo.c` (`main`).

The driver library behind the header is closed source, so `main` is embedded as a
function of the values the `RC*` calls return: an environment gives the return
value of the k-th API call, and `main` yields the sequence of observable events
(API calls with their arguments and results, and the lines printed) together with
the exit code.  C `int` values are embedded as `Int`, so the environments range over
every `int` a call can return; no arithmetic of `main` can overflow (`i` never exceeds
`count`, `frameCounter` never exceeds 1001).
-/

namespace RayComposer

/-! ## rcdev.h -/

/-- The enumeration `RCReturnCode` of `rcdev.h`. -/
inductive RCReturnCode
  | RCOk
  | RCErrorNotInitialised
  | RCErrorNotEnumerated
  | RCErrorInvalidHandle
  | RCErrorNotStarted
  | RCErrorIO
  | RCErrorParameterOutOfRange
  | RCErrorParameterInvalid
  deriving DecidableEq, Repr

/-- The integer value the header gives each enumerator. -/
def RCReturnCode.toInt : RCReturnCode → Int
  | .RCOk => 0
  | .RCErrorNotInitialised => -1
  | .RCErrorNotEnumerated => -2
  | .RCErrorInvalidHandle => -3
  | .RCErrorNotStarted => -4
  | RCReturnCode.RCErrorIO => -5
  | .RCErrorParameterOutOfRange => -6
  | .RCErrorParameterInvalid => -7

/-- The enumerators documented as errors: every one but `RCOk`. -/
def RCReturnCode.isError : RCReturnCode → Bool
  | .RCOk => false
  | _ => true

/-- The error enumerators in the order of their declaration. -/
def errorCodes : List RCReturnCode :=
  [.RCErrorNotInitialised, .RCErrorNotEnumerated, .RCErrorInvalidHandle, .RCErrorNotStarted,
   RCReturnCode.RCErrorIO, .RCErrorParameterOutOfRange, .RCErrorParameterInvalid]

/-- The value of `RCOk` as the demo compares it with an `int`. -/
def RCOk : Int := RCReturnCode.RCOk.toInt

/-- The macro `RCAPI_VERSION`, `0x0106`. -/
def RCAPI_VERSION : Int := 0x0106

/-- The structure `RCPoint`: `x`, `y` are `signed short`, the other six `unsigned short`. -/
structure RCPoint where
  x : Int
  y : Int
  red : Nat
  green : Nat
  blue : Nat
  intensity : Nat
  user1 : Nat
  user2 : Nat
  deriving DecidableEq, Repr

/-! ## demo.c: what `main` observes and does -/

/-- What the driver answers to the k-th API call of a run (k counts from 0): the `int` it
returns and, for `RCDeviceID`, the string it leaves in the `deviceId` buffer. -/
structure Env where
  ret : Nat → Int
  deviceId : Nat → String

/-- An API call of `main` with its arguments.  Buffer arguments are recorded by content
(`deviceId` of `RCOpenDevice`) or left out (the output buffer of `RCDeviceID`, the `points`
array of `RCWriteFrame`, whose content is `circleFrame` below). -/
inductive Call
  | RCInit
  | RCEnumerateDevices
  | RCDeviceID (index : Int) (maxLength : Nat)
  | RCOpenDevice (deviceId : String)
  | RCStartOutput (handle : Int)
  | RCWaitForReady (handle : Int) (timeout : Int)
  | RCWriteFrame (handle : Int) (count : Nat) (speed : Nat) (repeats : Nat)
  | RCStopOutput (handle : Int)
  | RCCloseDevice (handle : Int)
  | RCExit
  deriving DecidableEq, Repr

/-- The lines `main` prints, one constructor per `printf` format with its arguments. -/
inductive Msg
  | errInit
  | versionTooOld
  | apiVersion (major : Int) (minor : Int)
  | errEnumerate
  | noDevices
  | found (count : Int)
  | errDeviceId
  | deviceLine (i : Int) (deviceId : String)
  | newline
  | opening (deviceId : String)
  | errOpen (handle : Int)
  | starting
  | errStart (ret : Int)
  | errWait (ret : Int)
  | showingFrame (frameCounter : Int)
  | errWrite (ret : Int)
  | stopping
  | errStop (ret : Int)
  | closing
  | errClose (ret : Int)
  | errExit (ret : Int)
  deriving DecidableEq, Repr

/-- An observable event of a run: an API call with the value it returned, or a printed line. -/
inductive Event
  | call (c : Call) (ret : Int)
  | print (m : Msg)
  deriving DecidableEq, Repr

/-- An API call together with the value it returned. -/
structure ApiCall where
  call : Call
  ret : Int
  deriving DecidableEq, Repr

/-- The API calls of a trace, in order, the printed lines dropped. -/
def apiCalls : List Event → List ApiCall
  | [] => []
  | .call c r :: es => ⟨c, r⟩ :: apiCalls es
  | .print _ :: es => apiCalls es

/-- The run so far: how many API calls were made and the events, oldest first. -/
structure St where
  calls : Nat
  trace : List Event

/-- Record the API call `c`, answered by the environment. -/
def St.call (env : Env) (s : St) (c : Call) : St :=
  ⟨s.calls + 1, s.trace ++ [.call c (env.ret s.calls)]⟩

/-- Record a printed line. -/
def St.print (s : St) (m : Msg) : St :=
  ⟨s.calls, s.trace ++ [.print m]⟩

/-- How a loop of `main` ends: it falls through, `main` returns from inside it, or the
recursion bound of the embedding is used up (`main_returns`: this never happens). -/
inductive Outcome
  | next (s : St)
  | ret (s : St) (code : Int)
  | stuck (s : St)

/-- What a run of `main` leaves: the events and the exit code (`none`: recursion bound
used up, which `main_returns` excludes). -/
structure Result where
  trace : List Event
  exit : Option Int
  deriving DecidableEq, Repr

/-- The loop `for(i = 0; i < count; i++)` of `main` that lists the devices found
(demo.c lines 42-49), from the value `i`; `sizeof(deviceId)` is 256. -/
def listDevices (env : Env) (count : Int) : Nat → Int → St → Outcome
  | 0, i, s => if i < count then .stuck s else .next s
  | fuel + 1, i, s =>
    if i < count then
      let ret := env.ret s.calls
      let deviceId := env.deviceId s.calls
      let s := s.call env (.RCDeviceID i 256)
      if ret < 0 then .ret (s.print .errDeviceId) (-4) else
      let s := s.print (.deviceLine i deviceId)
      listDevices env count fuel (i + 1) s
    else .next s

/-- The number of elements of the array `points`, `sizeof(points) / sizeof(struct RCPoint)`. -/
def pointCount : Nat := 200

/-- The loop `do { ... } while(frameCounter++ < 1000)` of `main` (demo.c lines 72-104), from
the value `frameCounter`.  Filling `points` has no observable effect and is embedded apart,
as `circleFrame`; `speed` is 20000. -/
def frameLoop (env : Env) (handle : Int) : Nat → Int → St → Outcome
  | 0, _, s => .stuck s
  | fuel + 1, frameCounter, s =>
    let speed : Nat := 20000
    let ret := env.ret s.calls
    let s := s.call env (.RCWaitForReady handle (-1))
    if ret < RCOk then .ret (s.print (.errWait ret)) (-8) else
    let s := s.print (.showingFrame frameCounter)
    let ret := env.ret s.calls
    let s := s.call env (.RCWriteFrame handle pointCount speed 0)
    if ret < RCOk then .ret (s.print (.errWrite ret)) (-9) else
    if frameCounter < 1000 then frameLoop env handle fuel (frameCounter + 1) s
    else .next s

/-- The function `main` of demo.c.  `ret >> 8` and `ret & 0xFF` are taken on a value that
is at least `RCAPI_VERSION`, where they are `ret / 256` and `ret % 256`. -/
def main (env : Env) : Result :=
  let s : St := ⟨0, []⟩
  let frameCounter : Int := 1
  let ret := env.ret s.calls
  let s := s.call env .RCInit
  if ret < 0 then ⟨(s.print .errInit).trace, some (-1)⟩ else
  if ret < RCAPI_VERSION then ⟨(s.print .versionTooOld).trace, some (-2)⟩ else
  let s := s.print (.apiVersion (ret / 256) (ret % 256))
  let count := env.ret s.calls
  let s := s.call env .RCEnumerateDevices
  if count < 0 then ⟨(s.print .errEnumerate).trace, some (-3)⟩ else
  if count = 0 then ⟨(s.print .noDevices).trace, some 0⟩ else
  let s := s.print (.found count)
  match listDevices env count count.toNat 0 s with
  | .stuck s => ⟨s.trace, none⟩
  | .ret s code => ⟨s.trace, some code⟩
  | .next s =>
    let s := s.print .newline
    let ret := env.ret s.calls
    let deviceId := env.deviceId s.calls
    let s := s.call env (.RCDeviceID 0 256)
    if ret < 0 then ⟨(s.print .errDeviceId).trace, some (-5)⟩ else
    let s := s.print (.opening deviceId)
    let handle := env.ret s.calls
    let s := s.call env (.RCOpenDevice deviceId)
    if handle < 0 then ⟨(s.print (.errOpen handle)).trace, some (-6)⟩ else
    let s := s.print .starting
    let ret := env.ret s.calls
    let s := s.call env (.RCStartOutput handle)
    if ret < RCOk then ⟨(s.print (.errStart ret)).trace, some (-7)⟩ else
    match frameLoop env handle 1000 frameCounter s with
    | .stuck s => ⟨s.trace, none⟩
    | .ret s code => ⟨s.trace, some code⟩
    | .next s =>
      let s := s.print .stopping
      let ret := env.ret s.calls
      let s := s.call env (.RCStopOutput handle)
      if ret < RCOk then ⟨(s.print (.errStop ret)).trace, some (-10)⟩ else
      let s := s.print .closing
      let ret := env.ret s.calls
      let s := s.call env (.RCCloseDevice handle)
      if ret < RCOk then ⟨(s.print (.errClose ret)).trace, some (-11)⟩ else
      let ret := env.ret s.calls
      let s := s.call env .RCExit
      if ret < RCOk then ⟨(s.print (.errExit ret)).trace, some (-12)⟩ else
      ⟨s.trace, some 0⟩

/-! ## demo.c: the points of a frame (lines 76-89)

The arithmetic is IEEE 754 binary64 arithmetic (`double`).  A finite `double` is embedded
as the rational number it denotes, and an operation as the exact operation followed by
`roundDouble`, rounding to nearest with ties to even, every operation being rounded to
binary64 on its own.  Overflow to infinity is not embedded: every value of the loop is
below `2 ^ 16` in magnitude.  The functions `sin` and `cos` of the C library are parameters. -/

/-- Rounding of a rational to an integer, to nearest, ties to the even integer. -/
def roundHalfEven (y : ℚ) : Int :=
  let f := ⌊y⌋
  if y - f < 1 / 2 then f
  else if 1 / 2 < y - f then f + 1
  else if f % 2 = 0 then f else f + 1

/-- The binary64 exponent of `x`: `⌊log₂ |x|⌋`, and -1022 below `2 ^ (-1022)`, where the
subnormal numbers share the exponent of the smallest normal ones. -/
def binade (x : ℚ) : Int :=
  max (Int.log 2 |x|) (-1022)

/-- Rounding to binary64, to nearest, ties to even: around `x` the doubles are the
multiples of `2 ^ (binade x - 52)` (53 significant bits). -/
def roundDouble (x : ℚ) : ℚ :=
  roundHalfEven (x / 2 ^ (binade x - 52)) * 2 ^ (binade x - 52)

/-- The numbers on the binary64 grid: `m * 2 ^ k` with `|m| < 2 ^ 53` and `k` at least
-1074. -/
def Representable (a : ℚ) : Prop :=
  ∃ m k : Int, a = m * 2 ^ k ∧ |m| < 2 ^ 53 ∧ -1074 ≤ k

/-- The constant `M_PI` of `math.h`, the double `0x1.921fb54442d18p+1`. -/
def M_PI : ℚ := 884279719003555 / 281474976710656

/-- Conversion of an integer to `double`. -/
def ofInt (n : Int) : ℚ :=
  roundDouble n

/-- Multiplication of doubles. -/
def fmul (a b : ℚ) : ℚ :=
  roundDouble (a * b)

/-- Division of doubles, by a divisor other than 0. -/
def fdiv (a b : ℚ) : ℚ :=
  roundDouble (a / b)

/-- Subtraction of doubles. -/
def fsub (a b : ℚ) : ℚ :=
  roundDouble (a - b)

/-- Conversion of a floating value to an integer: the fractional part is discarded
(truncation toward zero). -/
def truncate {α : Type} [LinearOrderedField α] [FloorRing α] (v : α) : Int :=
  if 0 ≤ v then ⌊v⌋ else ⌈v⌉

/-- Conversion of a floating value to `signed short`: the truncated value when
`signed short` can hold it, `none` (undefined in C) when it cannot. -/
def toSignedShort {α : Type} [LinearOrderedField α] [FloorRing α] (v : α) : Option Int :=
  let t := truncate v
  if -32768 ≤ t ∧ t ≤ 32767 then some t else none

/-- Conversion of an `int` to `unsigned short`: reduction modulo `2 ^ 16`. -/
def toUnsignedShort (n : Int) : Nat :=
  (n % 2 ^ 16).toNat

/-- The angle `phi = (double)i * M_PI * 2.0 / count` of element `i` (demo.c line 80), for
a device count other than 0. -/
def phi (count : Int) (i : Nat) : ℚ :=
  fdiv (fmul (fmul (ofInt i) M_PI) 2) (ofInt count)

/-- The body of the loop that fills `points`: element `i` of the frame for the device
count `count`, with the functions `sin` and `cos` of the C library. -/
def circlePoint (sin cos : ℚ → ℚ) (count : Int) (i : Nat) : Option RCPoint :=
  match toSignedShort (fsub (fmul (sin (phi count i)) 32767.5) 0.5),
    toSignedShort (fsub (fmul (cos (phi count i)) 32767.5) 0.5) with
  | some x, some y =>
    some ⟨x, y, toUnsignedShort 65535, toUnsignedShort 65535, toUnsignedShort 65535,
      toUnsignedShort 65535, toUnsignedShort 65535, toUnsignedShort 65535⟩
  | _, _ => none

/-- The array `points` after the loop `for(i=0; i < pointCount; i++)`. -/
def circleFrame (sin cos : ℚ → ℚ) (count : Int) : List (Option RCPoint) :=
  (List.range pointCount).map (circlePoint sin cos count)

/-- A stand-in for the sine near 0, where the sine of a double is that double: the
argument, kept between -1 and 1. -/
def sineNearZero (t : ℚ) : ℚ :=
  max (-1) (min 1 t)

/-- A stand-in for the cosine near 0, where the cosine of a double is 1. -/
def cosineNearZero (_ : ℚ) : ℚ :=
  1

/-! ## Vocabulary for traces of API calls -/

/-- The API function a call is a call of. -/
inductive Fn
  | RCInit | RCEnumerateDevices | RCDeviceID | RCOpenDevice | RCStartOutput
  | RCWaitForReady | RCWriteFrame | RCStopOutput | RCCloseDevice | RCExit
  deriving DecidableEq, Repr

/-- The function of a call, its arguments dropped. -/
def Call.fn : Call → Fn
  | .RCInit => .RCInit
  | .RCEnumerateDevices => .RCEnumerateDevices
  | .RCDeviceID _ _ => .RCDeviceID
  | .RCOpenDevice _ => .RCOpenDevice
  | .RCStartOutput _ => .RCStartOutput
  | .RCWaitForReady _ _ => .RCWaitForReady
  | .RCWriteFrame _ _ _ _ => .RCWriteFrame
  | .RCStopOutput _ => .RCStopOutput
  | .RCCloseDevice _ => .RCCloseDevice
  | .RCExit => .RCExit

/-- The API functions called in a trace, in order. -/
def calledFns (tr : List Event) : List Fn :=
  (apiCalls tr).map (fun e => e.call.fn)

/-- The final state of a loop, however it ended. -/
def Outcome.st : Outcome → St
  | .next s => s
  | .ret s _ => s
  | .stuck s => s

/-- The session of handle `h` is started after the calls `pre`: `RCOpenDevice` returned `h`,
not negative, a later `RCStartOutput h` returned at least `RCOk`, and no `RCStopOutput` or
`RCCloseDevice` call was made. -/
def Started (h : Int) (pre : List ApiCall) : Prop :=
  (∃ a b c id r, pre = a ++ ⟨.RCOpenDevice id, h⟩ :: (b ++ ⟨.RCStartOutput h, r⟩ :: c) ∧
    0 ≤ h ∧ RCOk ≤ r) ∧
  ∀ x ∈ pre, ∀ h', x.call ≠ .RCStopOutput h' ∧ x.call ≠ .RCCloseDevice h'

/-- The call `e`, made after the calls `pre`, respects the session: a wait or a write is made
on a started session, a close after a successful stop with no start in between. -/
def InSession (pre : List ApiCall) (e : ApiCall) : Prop :=
  (∀ h, ((∃ t, e.call = .RCWaitForReady h t) ∨ (∃ c s r, e.call = .RCWriteFrame h c s r)) →
    Started h pre) ∧
  (∀ h, e.call = .RCCloseDevice h →
    ∃ a b r, pre = a ++ ⟨.RCStopOutput h, r⟩ :: b ∧ RCOk ≤ r ∧
      ∀ x ∈ b, ∀ h', x.call ≠ .RCStartOutput h')

/-- The call `e`, made after the calls `pre`, if a write, follows a successful wait on its
handle directly and has the parameters of the demo. -/
def WaitThenWrite (pre : List ApiCall) (e : ApiCall) : Prop :=
  ∀ h c sp rp, e.call = .RCWriteFrame h c sp rp →
    c = 200 ∧ sp = 20000 ∧ rp = 0 ∧
    (∃ pre' w, pre = pre' ++ [⟨.RCWaitForReady h (-1), w⟩] ∧ RCOk ≤ w) ∧
    ∃ id, (⟨.RCOpenDevice id, h⟩ : ApiCall) ∈ pre

/-- Every call of the list satisfies both conditions with respect to the calls before it. -/
def Safe (l : List ApiCall) : Prop :=
  ∀ pre e post, l = pre ++ e :: post → InSession pre e ∧ WaitThenWrite pre e

/-- The calls that neither use nor end a session. -/
def Call.quiet : Call → Bool
  | .RCInit | .RCEnumerateDevices | .RCDeviceID _ _ | .RCOpenDevice _ | .RCStartOutput _
  | .RCExit => true
  | _ => false

/-- No session was stopped or closed so far, and every call so far was safe. -/
def Idle (l : List ApiCall) : Prop :=
  Safe l ∧ ∀ x ∈ l, ∀ h', x.call ≠ .RCStopOutput h' ∧ x.call ≠ .RCCloseDevice h'

/-- The session of `h` is started and every call so far was safe. -/
def Running (h : Int) (l : List ApiCall) : Prop :=
  Safe l ∧ Started h l

/-! ## Concrete runs -/

/-- A device identifier of the form the header documents. -/
def demoDeviceId : String := "RayComposer USB 1234"

/-- A run with one device in which the first `RCWriteFrame` fails with `RCErrorIO`:
`RCInit` returns `0x0106`, `RCEnumerateDevices` 1, `RCOpenDevice` the handle 7,
`RCWaitForReady` 1 free buffer, every other call 0. -/
def envWriteFails : Env :=
  ⟨fun k => if k = 0 then 0x0106 else if k = 1 then 1 else if k = 4 then 7
      else if k = 6 then 1 else if k = 7 then -5 else 0,
    fun _ => demoDeviceId⟩

/-- A run in which `RCInit` returns `0x0106` and `RCEnumerateDevices` finds no device. -/
def envNoDevices : Env :=
  ⟨fun k => if k = 0 then 0x0106 else 0, fun _ => demoDeviceId⟩

/-- A run in which the library is older than the header: `RCInit` returns `0x0105`. -/
def envOldLibrary : Env :=
  ⟨fun k => if k = 0 then 0x0105 else 0, fun _ => demoDeviceId⟩

/-- A run with one device in which no call fails: `RCInit` returns `0x0106`,
`RCEnumerateDevices` 1, `RCOpenDevice` the handle 7, every other call 0. -/
def envAllOk : Env :=
  ⟨fun k => if k = 0 then 0x0106 else if k = 1 then 1 else if k = 4 then 7 else 0,
    fun _ => demoDeviceId⟩

/-! ## Properties of the return codes -/

/-- C7: `RCOk` is 0; the seven error codes NotInitialised, NotEnumerated, InvalidHandle,
NotStarted, IO, ParameterOutOfRange, ParameterInvalid are all the codes but `RCOk`, their
values are exactly -1, ..., -7, pairwise distinct and strictly negative; so the test
`c < RCOk` of the demo holds exactly for the error codes, and no error code equals a
non-negative return value. -/
theorem returnCode_values :
    RCReturnCode.RCOk.toInt = 0 ∧ RCOk = 0 ∧
    errorCodes.length = 7 ∧
    errorCodes.map RCReturnCode.toInt = [-1, -2, -3, -4, -5, -6, -7] ∧
    (errorCodes.map RCReturnCode.toInt).Nodup ∧
    (∀ c : RCReturnCode, c ∈ errorCodes ↔ c ≠ RCReturnCode.RCOk) ∧
    (∀ c : RCReturnCode, c ∈ errorCodes ↔ c.isError = true) ∧
    (∀ c : RCReturnCode, c ∈ errorCodes → c.toInt < 0 ∧ -7 ≤ c.toInt) ∧
    (∀ v : Int, -7 ≤ v → v ≤ -1 → ∃ c ∈ errorCodes, c.toInt = v) ∧
    (∀ c d : RCReturnCode, c.toInt = d.toInt → c = d) ∧
    (∀ c : RCReturnCode, c.toInt < RCOk ↔ c ∈ errorCodes) ∧
    (∀ (c : RCReturnCode) (v : Int), c ∈ errorCodes → 0 ≤ v → c.toInt ≠ v) := by
  refine ⟨rfl, rfl, rfl, rfl, by decide, ?_, ?_, ?_, ?_, ?_, ?_, ?_⟩
  · intro c; cases c <;> decide
  · intro c; cases c <;> decide
  · intro c; cases c <;> decide
  · intro v h1 h2
    have hv : v = -1 ∨ v = -2 ∨ v = -3 ∨ v = -4 ∨ v = -5 ∨ v = -6 ∨ v = -7 := by omega
    rcases hv with h | h | h | h | h | h | h <;> subst h <;> decide
  · intro c d; cases c <;> cases d <;> decide
  · intro c; cases c <;> decide
  · intro c v hc hv
    have h : c.toInt < 0 := by revert hc; cases c <;> decide
    omega

/-! ## Properties of the points of a frame -/

theorem roundHalfEven_le {y : ℚ} {N : Int} (h : y ≤ N) : roundHalfEven y ≤ N := by
  have hf : ⌊y⌋ ≤ N := by
    have : ((⌊y⌋ : Int) : ℚ) ≤ N := le_trans (Int.floor_le y) h
    exact_mod_cast this
  unfold roundHalfEven
  simp only
  by_cases hlt : ⌊y⌋ < N
  · split_ifs <;> omega
  · have hfe : ⌊y⌋ = N := by omega
    have : y - ((⌊y⌋ : Int) : ℚ) < 1 / 2 := by
      rw [hfe]
      linarith
    rw [if_pos this]
    exact hf

theorem le_roundHalfEven {y : ℚ} {N : Int} (h : (N : ℚ) ≤ y) : N ≤ roundHalfEven y := by
  have hf : N ≤ ⌊y⌋ := Int.le_floor.mpr h
  unfold roundHalfEven
  simp only
  split_ifs <;> omega

theorem roundHalfEven_near (y : ℚ) : |(roundHalfEven y : ℚ) - y| ≤ 1 / 2 := by
  have h0 : (0 : ℚ) ≤ y - ⌊y⌋ := sub_nonneg.mpr (Int.floor_le y)
  have h1 : y - ⌊y⌋ < 1 := by
    have := Int.lt_floor_add_one y
    linarith
  unfold roundHalfEven
  simp only
  rw [abs_le]
  split_ifs <;> push_cast <;> constructor <;> linarith

/-- The result of `roundDouble` is a multiple of the spacing of the doubles around `x` and
differs from `x` by at most half that spacing. -/
theorem roundDouble_near (x : ℚ) :
    (∃ n : Int, roundDouble x = n * 2 ^ (binade x - 52)) ∧
    |roundDouble x - x| ≤ 2 ^ (binade x - 52) / 2 := by
  have hu : (0 : ℚ) < 2 ^ (binade x - 52) := zpow_pos (by norm_num) _
  refine ⟨⟨_, rfl⟩, ?_⟩
  have h := roundHalfEven_near (x / 2 ^ (binade x - 52))
  have e : roundDouble x - x =
      ((roundHalfEven (x / 2 ^ (binade x - 52)) : ℚ) - x / 2 ^ (binade x - 52)) *
        2 ^ (binade x - 52) := by
    unfold roundDouble
    field_simp
  rw [e, abs_mul, abs_of_pos hu]
  calc |(roundHalfEven (x / 2 ^ (binade x - 52)) : ℚ) - x / 2 ^ (binade x - 52)| *
        2 ^ (binade x - 52) ≤ 1 / 2 * 2 ^ (binade x - 52) :=
        mul_le_mul_of_nonneg_right h hu.le
    _ = 2 ^ (binade x - 52) / 2 := by ring

theorem roundDouble_zero : roundDouble 0 = 0 := by
  have h : roundHalfEven 0 = 0 := by
    unfold roundHalfEven
    simp
  simp [roundDouble, h]

theorem binade_eq_log {x : ℚ} {E : Int} (hE : -1022 ≤ E) (h : E < binade x) :
    binade x = Int.log 2 |x| := by
  unfold binade at h ⊢
  omega

theorem zpow_le_abs {x : ℚ} (hx : x ≠ 0) : (2 : ℚ) ^ Int.log 2 |x| ≤ |x| :=
  Int.zpow_log_le_self (by norm_num) (abs_pos.mpr hx)

theorem repr_on_grid (m k e : Int) (he : e ≤ k + 52) :
    (m : ℚ) * 2 ^ k = ((m * 2 ^ (k + 52 - e).toNat : Int) : ℚ) * 2 ^ (e - 52) := by
  have h1 : ((k + 52 - e).toNat : Int) = k + 52 - e := Int.toNat_of_nonneg (by omega)
  have h2 : ((2 : ℚ) ^ (k + 52 - e).toNat) = (2 : ℚ) ^ (k + 52 - e) := by
    rw [← h1, zpow_natCast]
    rw [h1]
  push_cast
  rw [h2, mul_assoc, ← zpow_add₀ (by norm_num : (2 : ℚ) ≠ 0)]
  congr 2
  ring

theorem roundDouble_le {x a : ℚ} (ha : Representable a) (h : x ≤ a) : roundDouble x ≤ a := by
  obtain ⟨m, k, rfl, hm, hk⟩ := ha
  by_cases hx : x = 0
  · subst hx
    rw [roundDouble_zero]
    exact h
  have hu : (0 : ℚ) < 2 ^ (binade x - 52) := zpow_pos (by norm_num) _
  by_cases he : binade x ≤ k + 52
  · have hg := repr_on_grid m k (binade x) he
    unfold roundDouble
    rw [hg] at h ⊢
    have h1 : x / 2 ^ (binade x - 52) ≤ ((m * 2 ^ (k + 52 - binade x).toNat : Int) : ℚ) :=
      (div_le_iff₀ hu).mpr h
    have h2 := roundHalfEven_le h1
    exact mul_le_mul_of_nonneg_right (by exact_mod_cast h2) hu.le
  · have he' : k + 52 < binade x := not_le.mp he
    have hb := binade_eq_log (by omega : -1022 ≤ k + 52) he'
    have hp : (2 : ℚ) ^ binade x ≤ |x| := by rw [hb]; exact zpow_le_abs hx
    have hmq : (m : ℚ) < 2 ^ 53 ∧ -(2 : ℚ) ^ 53 < m := by
      have := abs_lt.mp hm
      exact ⟨by exact_mod_cast this.2, by exact_mod_cast this.1⟩
    have hk0 : (0 : ℚ) < 2 ^ k := zpow_pos (by norm_num) _
    have hmono : (2 : ℚ) ^ (k + 53) ≤ 2 ^ binade x :=
      zpow_le_zpow_right₀ (by norm_num) (by omega)
    have hsplit : (2 : ℚ) ^ (k + 53) = 2 ^ 53 * 2 ^ k := by
      rw [zpow_add₀ (by norm_num : (2 : ℚ) ≠ 0), mul_comm]
      norm_num
    by_cases hpos : 0 ≤ x
    · exfalso
      rw [abs_of_nonneg hpos] at hp
      have : (m : ℚ) * 2 ^ k < 2 ^ 53 * 2 ^ k := mul_lt_mul_of_pos_right hmq.1 hk0
      linarith
    · rw [abs_of_neg (not_le.mp hpos)] at hp
      have hsp : (2 : ℚ) ^ binade x = 2 ^ 52 * 2 ^ (binade x - 52) := by
        rw [← zpow_natCast, ← zpow_add₀ (by norm_num : (2 : ℚ) ≠ 0)]
        congr 1
        ring
      have h1 : x / 2 ^ (binade x - 52) ≤ ((-(2 ^ 52) : Int) : ℚ) := by
        rw [div_le_iff₀ hu]
        push_cast
        linarith
      have h2 := roundHalfEven_le h1
      have h3 : (roundHalfEven (x / 2 ^ (binade x - 52)) : ℚ) * 2 ^ (binade x - 52) ≤
          ((-(2 ^ 52) : Int) : ℚ) * 2 ^ (binade x - 52) :=
        mul_le_mul_of_nonneg_right (by exact_mod_cast h2) hu.le
      have h4 : -(2 : ℚ) ^ 53 * 2 ^ k < m * 2 ^ k := mul_lt_mul_of_pos_right hmq.2 hk0
      unfold roundDouble
      push_cast at h3
      linarith

theorem le_roundDouble {x a : ℚ} (ha : Representable a) (h : a ≤ x) : a ≤ roundDouble x := by
  obtain ⟨m, k, rfl, hm, hk⟩ := ha
  by_cases hx : x = 0
  · subst hx
    rw [roundDouble_zero]
    exact h
  have hu : (0 : ℚ) < 2 ^ (binade x - 52) := zpow_pos (by norm_num) _
  by_cases he : binade x ≤ k + 52
  · have hg := repr_on_grid m k (binade x) he
    unfold roundDouble
    rw [hg] at h ⊢
    have h1 : ((m * 2 ^ (k + 52 - binade x).toNat : Int) : ℚ) ≤ x / 2 ^ (binade x - 52) :=
      (le_div_iff₀ hu).mpr h
    have h2 := le_roundHalfEven h1
    exact mul_le_mul_of_nonneg_right (by exact_mod_cast h2) hu.le
  · have he' : k + 52 < binade x := not_le.mp he
    have hb := binade_eq_log (by omega : -1022 ≤ k + 52) he'
    have hp : (2 : ℚ) ^ binade x ≤ |x| := by rw [hb]; exact zpow_le_abs hx
    have hmq : (m : ℚ) < 2 ^ 53 ∧ -(2 : ℚ) ^ 53 < m := by
      have := abs_lt.mp hm
      exact ⟨by exact_mod_cast this.2, by exact_mod_cast this.1⟩
    have hk0 : (0 : ℚ) < 2 ^ k := zpow_pos (by norm_num) _
    have hmono : (2 : ℚ) ^ (k + 53) ≤ 2 ^ binade x :=
      zpow_le_zpow_right₀ (by norm_num) (by omega)
    have hsplit : (2 : ℚ) ^ (k + 53) = 2 ^ 53 * 2 ^ k := by
      rw [zpow_add₀ (by norm_num : (2 : ℚ) ≠ 0), mul_comm]
      norm_num
    by_cases hneg : x ≤ 0
    · exfalso
      rw [abs_of_nonpos hneg] at hp
      have : -(2 : ℚ) ^ 53 * 2 ^ k < m * 2 ^ k := mul_lt_mul_of_pos_right hmq.2 hk0
      linarith
    · rw [abs_of_pos (not_le.mp hneg)] at hp
      have hsp : (2 : ℚ) ^ binade x = 2 ^ 52 * 2 ^ (binade x - 52) := by
        rw [← zpow_natCast, ← zpow_add₀ (by norm_num : (2 : ℚ) ≠ 0)]
        congr 1
        ring
      have h1 : (((2 ^ 52 : Int)) : ℚ) ≤ x / 2 ^ (binade x - 52) := by
        rw [le_div_iff₀ hu]
        push_cast
        linarith
      have h2 := le_roundHalfEven h1
      have h3 : (((2 ^ 52 : Int)) : ℚ) * 2 ^ (binade x - 52) ≤
          (roundHalfEven (x / 2 ^ (binade x - 52)) : ℚ) * 2 ^ (binade x - 52) :=
        mul_le_mul_of_nonneg_right (by exact_mod_cast h2) hu.le
      have h4 : (m : ℚ) * 2 ^ k < 2 ^ 53 * 2 ^ k := mul_lt_mul_of_pos_right hmq.1 hk0
      unfold roundDouble
      push_cast at h3
      linarith

theorem roundDouble_eq_self {a : ℚ} (ha : Representable a) : roundDouble a = a :=
  le_antisymm (roundDouble_le ha le_rfl) (le_roundDouble ha le_rfl)

theorem representable_int (n : Int) (h : |n| < 2 ^ 53) : Representable (n : ℚ) :=
  ⟨n, 0, by simp, h, by decide⟩

theorem representable_half (n : Int) (h : |n| < 2 ^ 53) : Representable ((n : ℚ) / 2) :=
  ⟨n, -1, by rw [zpow_neg_one]; ring, h, by decide⟩

theorem mul_scale_bounds {s : ℚ} (lo : -1 ≤ s) (hi : s ≤ 1) :
    -(65535 : ℚ) / 2 ≤ roundDouble (s * 32767.5) ∧ roundDouble (s * 32767.5) ≤ (65535 : ℚ) / 2 := by
  constructor
  · have := le_roundDouble (x := s * 32767.5) (representable_half (-65535) (by decide))
      (by norm_num; linarith)
    simpa using this
  · have := roundDouble_le (x := s * 32767.5) (representable_half 65535 (by decide))
      (by norm_num; linarith)
    simpa using this

theorem sub_half_bounds {t : ℚ} (lo : -(65535 : ℚ) / 2 ≤ t) (hi : t ≤ (65535 : ℚ) / 2) :
    -32768 ≤ roundDouble (t - 0.5) ∧ roundDouble (t - 0.5) ≤ 32767 := by
  constructor
  · have := le_roundDouble (x := t - 0.5) (representable_int (-32768) (by decide))
      (by norm_num; linarith)
    simpa using this
  · have := roundDouble_le (x := t - 0.5) (representable_int 32767 (by decide))
      (by norm_num; linarith)
    simpa using this

/-- The bounds of `sub_half_bounds` also hold when the multiplication and the subtraction
are fused into one operation with a single rounding. -/
theorem fused_bounds {s : ℚ} (lo : -1 ≤ s) (hi : s ≤ 1) :
    -32768 ≤ roundDouble (s * 32767.5 - 0.5) ∧ roundDouble (s * 32767.5 - 0.5) ≤ 32767 := by
  constructor
  · have := le_roundDouble (x := s * 32767.5 - 0.5) (representable_int (-32768) (by decide))
      (by norm_num; linarith)
    simpa using this
  · have := roundDouble_le (x := s * 32767.5 - 0.5) (representable_int 32767 (by decide))
      (by norm_num; linarith)
    simpa using this

theorem coordinate_bounds {s : ℚ} (lo : -1 ≤ s) (hi : s ≤ 1) :
    -32768 ≤ fsub (fmul s 32767.5) 0.5 ∧ fsub (fmul s 32767.5) 0.5 ≤ 32767 := by
  have h := mul_scale_bounds lo hi
  exact sub_half_bounds h.1 h.2

theorem truncate_bounds {α : Type} [LinearOrderedField α] [FloorRing α] (v : α)
    (lo : -32768 ≤ v) (hi : v ≤ 32767) :
    -32768 ≤ truncate v ∧ truncate v ≤ 32767 := by
  unfold truncate
  split
  next h =>
    constructor
    · have : (0 : Int) ≤ ⌊v⌋ := Int.le_floor.mpr (by simpa using h)
      omega
    · have h1 : ((⌊v⌋ : Int) : α) ≤ 32767 := le_trans (Int.floor_le v) hi
      exact_mod_cast h1
  next h =>
    constructor
    · have h1 : (-32768 : α) ≤ ((⌈v⌉ : Int) : α) := le_trans lo (Int.le_ceil v)
      exact_mod_cast h1
    · have : ⌈v⌉ ≤ (0 : Int) := Int.ceil_le.mpr (by simpa using le_of_lt (not_le.mp h))
      omega

theorem toSignedShort_of_bounds {α : Type} [LinearOrderedField α] [FloorRing α] (v : α)
    (lo : -32768 ≤ v) (hi : v ≤ 32767) :
    toSignedShort v = some (truncate v) := by
  have h := truncate_bounds v lo hi
  simp [toSignedShort, h.1, h.2]

theorem scaled_bounds {α : Type} [LinearOrderedField α] (t : α) (lo : -1 ≤ t) (hi : t ≤ 1) :
    -32768 ≤ t * 32767.5 - 0.5 ∧ t * 32767.5 - 0.5 ≤ 32767 := by
  constructor <;> norm_num <;> linarith

/-- Whatever the C library computes for `sin` and `cos`, as long as its values lie between
-1 and 1: every element of the frame is a point (no conversion is undefined), with `x` and
`y` the truncated doubles of lines 81 and 82 and 65535 in the six colour fields. -/
theorem circlePoint_of_bounded (sin cos : ℚ → ℚ) (count : Int) (i : Nat)
    (hsin : ∀ t, -1 ≤ sin t ∧ sin t ≤ 1) (hcos : ∀ t, -1 ≤ cos t ∧ cos t ≤ 1) :
    circlePoint sin cos count i =
      some ⟨truncate (fsub (fmul (sin (phi count i)) 32767.5) 0.5),
        truncate (fsub (fmul (cos (phi count i)) 32767.5) 0.5),
        65535, 65535, 65535, 65535, 65535, 65535⟩ := by
  have hs := coordinate_bounds (hsin (phi count i)).1 (hsin (phi count i)).2
  have hc := coordinate_bounds (hcos (phi count i)).1 (hcos (phi count i)).2
  have hu : toUnsignedShort 65535 = 65535 := by decide
  unfold circlePoint
  rw [toSignedShort_of_bounds _ hs.1 hs.2, toSignedShort_of_bounds _ hc.1 hc.2, hu]

theorem truncate_intCast (n : Int) : truncate ((n : ℚ)) = n := by
  unfold truncate
  split <;> simp

/-- The frame for 600000000 devices, element 1: the angle is so small that the cosine of
the C library is the double 1, and the code stores `y = 32767`. -/
theorem circlePoint_small_angle (sin cos : ℚ → ℚ)
    (hsin : ∀ t, -1 ≤ sin t ∧ sin t ≤ 1) (hcos : ∀ t, -1 ≤ cos t ∧ cos t ≤ 1)
    (hone : cos (phi 600000000 1) = 1) :
    (circlePoint sin cos 600000000 1).map (fun p => p.y) = some 32767 := by
  have h1 : fmul 1 32767.5 = (65535 : ℚ) / 2 := by
    have := roundDouble_eq_self (representable_half 65535 (by decide))
    unfold fmul
    norm_num at this ⊢
    exact this
  have h2 : fsub ((65535 : ℚ) / 2) 0.5 = ((32767 : Int) : ℚ) := by
    have := roundDouble_eq_self (representable_int 32767 (by decide))
    unfold fsub
    norm_num at this ⊢
    exact this
  rw [circlePoint_of_bounded sin cos _ _ hsin hcos, hone, h1, h2, truncate_intCast]
  rfl

/-- C5: for every device count of at least 1 and every index `i` below 200: with
`phi = i * pi * 2 / count` over the reals, `sin phi * 32767.5 - 0.5` and
`cos phi * 32767.5 - 0.5` lie between -32768 and 32767, and so do their truncations toward
zero; and in the `double` arithmetic of the code, with a C library whose `sin` and `cos`
have values between -1 and 1, the doubles computed at lines 81 and 82 lie between -32768
and 32767, their conversion to `signed short` is defined, and element `i` of the frame is
the point with these truncations as `x` and `y`, in the range -32768..32767, and 65535,
which is `2 ^ 16 - 1`, in the six colour fields. -/
theorem circlePoint_in_range (sin cos : ℚ → ℚ) (count : Int) (i : Nat)
    (hsin : ∀ t, -1 ≤ sin t ∧ sin t ≤ 1) (hcos : ∀ t, -1 ≤ cos t ∧ cos t ≤ 1)
    (hcount : 1 ≤ count) (hi : i < 200) :
    ((-32768 ≤ Real.sin ((i : ℝ) * Real.pi * 2 / (count : ℝ)) * 32767.5 - 0.5 ∧
        Real.sin ((i : ℝ) * Real.pi * 2 / (count : ℝ)) * 32767.5 - 0.5 ≤ 32767) ∧
      (-32768 ≤ Real.cos ((i : ℝ) * Real.pi * 2 / (count : ℝ)) * 32767.5 - 0.5 ∧
        Real.cos ((i : ℝ) * Real.pi * 2 / (count : ℝ)) * 32767.5 - 0.5 ≤ 32767) ∧
      (-32768 ≤ truncate (Real.sin ((i : ℝ) * Real.pi * 2 / (count : ℝ)) * 32767.5 - 0.5) ∧
        truncate (Real.sin ((i : ℝ) * Real.pi * 2 / (count : ℝ)) * 32767.5 - 0.5) ≤ 32767) ∧
      (-32768 ≤ truncate (Real.cos ((i : ℝ) * Real.pi * 2 / (count : ℝ)) * 32767.5 - 0.5) ∧
        truncate (Real.cos ((i : ℝ) * Real.pi * 2 / (count : ℝ)) * 32767.5 - 0.5) ≤ 32767)) ∧
    ((-32768 ≤ fsub (fmul (sin (phi count i)) 32767.5) 0.5 ∧
        fsub (fmul (sin (phi count i)) 32767.5) 0.5 ≤ 32767) ∧
      (-32768 ≤ fsub (fmul (cos (phi count i)) 32767.5) 0.5 ∧
        fsub (fmul (cos (phi count i)) 32767.5) 0.5 ≤ 32767)) ∧
    ∃ x y : Int,
      x = truncate (fsub (fmul (sin (phi count i)) 32767.5) 0.5) ∧
      y = truncate (fsub (fmul (cos (phi count i)) 32767.5) 0.5) ∧
      (-32768 ≤ x ∧ x ≤ 32767) ∧ (-32768 ≤ y ∧ y ≤ 32767) ∧
      (circleFrame sin cos count)[i]? =
        some (some ⟨x, y, 65535, 65535, 65535, 65535, 65535, 65535⟩) ∧
      (65535 : Nat) = 2 ^ 16 - 1 := by
  have _hc := hcount
  have rs := scaled_bounds (Real.sin ((i : ℝ) * Real.pi * 2 / (count : ℝ)))
    (Real.neg_one_le_sin _) (Real.sin_le_one _)
  have rc := scaled_bounds (Real.cos ((i : ℝ) * Real.pi * 2 / (count : ℝ)))
    (Real.neg_one_le_cos _) (Real.cos_le_one _)
  have hs := coordinate_bounds (hsin (phi count i)).1 (hsin (phi count i)).2
  have hc := coordinate_bounds (hcos (phi count i)).1 (hcos (phi count i)).2
  refine ⟨⟨rs, rc, truncate_bounds _ rs.1 rs.2, truncate_bounds _ rc.1 rc.2⟩, ⟨hs, hc⟩,
    _, _, rfl, rfl, truncate_bounds _ hs.1 hs.2, truncate_bounds _ hc.1 hc.2, ?_,
    by norm_num⟩
  have hi' : i < pointCount := hi
  simp only [circleFrame, List.getElem?_map, List.getElem?_range hi', Option.map_some',
    circlePoint_of_bounded sin cos count i hsin hcos]

/-- C5 at the frame for 600000000 devices, element 1, with the stand-ins for the sine and
the cosine near 0. -/
theorem circlePoint_in_range_witness :
    (∀ t, -1 ≤ sineNearZero t ∧ sineNearZero t ≤ 1) ∧
    (∀ t, -1 ≤ cosineNearZero t ∧ cosineNearZero t ≤ 1) ∧
    (1 : Int) ≤ 600000000 ∧ 1 < 200 ∧
    ∃ x y : Int,
      x = truncate (fsub (fmul (sineNearZero (phi 600000000 1)) 32767.5) 0.5) ∧
      y = truncate (fsub (fmul (cosineNearZero (phi 600000000 1)) 32767.5) 0.5) ∧
      (-32768 ≤ x ∧ x ≤ 32767) ∧ (-32768 ≤ y ∧ y ≤ 32767) ∧
      (circleFrame sineNearZero cosineNearZero 600000000)[1]? =
        some (some ⟨x, y, 65535, 65535, 65535, 65535, 65535, 65535⟩) ∧
      (65535 : Nat) = 2 ^ 16 - 1 :=
  have hs : ∀ t, -1 ≤ sineNearZero t ∧ sineNearZero t ≤ 1 := fun t =>
    ⟨le_max_left _ _, max_le (by norm_num) (min_le_left _ _)⟩
  have hc : ∀ t, -1 ≤ cosineNearZero t ∧ cosineNearZero t ≤ 1 := fun _ =>
    ⟨by norm_num [cosineNearZero], by norm_num [cosineNearZero]⟩
  ⟨hs, hc, by decide, by decide,
    (circlePoint_in_range sineNearZero cosineNearZero 600000000 1 hs hc
      (by decide) (by decide)).2.2⟩

/-! ## Lemmas on traces -/

theorem apiCalls_append (l₁ l₂ : List Event) :
    apiCalls (l₁ ++ l₂) = apiCalls l₁ ++ apiCalls l₂ := by
  induction l₁ with
  | nil => rfl
  | cons e es ih => cases e <;> simp [apiCalls, ih]

@[simp]
theorem apiCalls_call (env : Env) (s : St) (c : Call) :
    apiCalls (s.call env c).trace = apiCalls s.trace ++ [⟨c, env.ret s.calls⟩] := by
  simp [St.call, apiCalls_append, apiCalls]

@[simp]
theorem apiCalls_print (s : St) (m : Msg) :
    apiCalls (s.print m).trace = apiCalls s.trace := by
  simp [St.print, apiCalls_append, apiCalls]

@[simp]
theorem calls_call (env : Env) (s : St) (c : Call) :
    (s.call env c).calls = s.calls + 1 := rfl

@[simp]
theorem calls_print (s : St) (m : Msg) : (s.print m).calls = s.calls := rfl

theorem safe_nil : Safe [] := by
  intro pre e post h
  simp at h

theorem safe_snoc {l : List ApiCall} {e : ApiCall} (hl : Safe l)
    (he : InSession l e ∧ WaitThenWrite l e) : Safe (l ++ [e]) := by
  intro pre e' post h
  rcases List.eq_nil_or_concat post with rfl | ⟨post', x, rfl⟩
  · obtain ⟨h1, h2⟩ := List.append_inj' h rfl
    simp only [List.cons.injEq, and_true] at h2
    subst h1; subst h2
    exact he
  · rw [List.concat_eq_append, ← List.cons_append, ← List.append_assoc] at h
    obtain ⟨h1, _⟩ := List.append_inj' h rfl
    exact hl pre e' post' h1

theorem quiet_ok (pre : List ApiCall) (c : Call) (r : Int) (hc : c.quiet = true) :
    InSession pre ⟨c, r⟩ ∧ WaitThenWrite pre ⟨c, r⟩ := by
  cases c <;> simp [Call.quiet] at hc <;> simp [InSession, WaitThenWrite]

theorem idle_nil : Idle [] := ⟨safe_nil, by simp⟩

theorem idle_snoc {l : List ApiCall} (hl : Idle l) (c : Call) (r : Int)
    (hc : c.quiet = true) : Idle (l ++ [⟨c, r⟩]) := by
  refine ⟨safe_snoc hl.1 (quiet_ok l c r hc), ?_⟩
  intro x hx h'
  rcases List.mem_append.mp hx with hx | hx
  · exact hl.2 x hx h'
  · simp only [List.mem_singleton] at hx
    subst hx
    cases c <;> simp [Call.quiet] at hc <;> simp

theorem started_snoc {h : Int} {l : List ApiCall} (hl : Started h l) (c : Call) (r : Int)
    (hc : ∀ h', c ≠ .RCStopOutput h' ∧ c ≠ .RCCloseDevice h') :
    Started h (l ++ [⟨c, r⟩]) := by
  obtain ⟨⟨a, b, d, id, r', rfl, h0, hr⟩, hno⟩ := hl
  refine ⟨⟨a, b, d ++ [⟨c, r⟩], id, r', by simp, h0, hr⟩, ?_⟩
  intro x hx h'
  rcases List.mem_append.mp hx with hx | hx
  · exact hno x hx h'
  · simp only [List.mem_singleton] at hx
    subst hx
    exact hc h'

theorem started_open_mem {h : Int} {l : List ApiCall} (hl : Started h l) :
    ∃ id, (⟨.RCOpenDevice id, h⟩ : ApiCall) ∈ l := by
  obtain ⟨⟨a, b, d, id, r', rfl, _, _⟩, _⟩ := hl
  exact ⟨id, by simp⟩

theorem running_wait {h : Int} {l : List ApiCall} (hl : Running h l) (w : Int) :
    Running h (l ++ [⟨.RCWaitForReady h (-1), w⟩]) := by
  refine ⟨safe_snoc hl.1 ⟨⟨?_, ?_⟩, ?_⟩, started_snoc hl.2 _ _ (by simp)⟩
  · rintro h' (⟨t, ht⟩ | ⟨c, s, r, hc⟩)
    · simp only [Call.RCWaitForReady.injEq] at ht
      rw [← ht.1]; exact hl.2
    · simp at hc
  · intro h' hc; simp at hc
  · intro h' c sp rp hc; simp at hc

theorem running_write {h : Int} {l : List ApiCall} {w : Int}
    (hl : Running h (l ++ [⟨.RCWaitForReady h (-1), w⟩])) (hw : RCOk ≤ w) (r : Int) :
    Running h (l ++ [⟨.RCWaitForReady h (-1), w⟩] ++ [⟨.RCWriteFrame h pointCount 20000 0, r⟩]) := by
  refine ⟨safe_snoc hl.1 ⟨⟨?_, ?_⟩, ?_⟩, started_snoc hl.2 _ _ (by simp)⟩
  · rintro h' (⟨t, ht⟩ | ⟨c, s, r, hc⟩)
    · simp at ht
    · simp only [Call.RCWriteFrame.injEq] at hc
      rw [← hc.1]; exact hl.2
  · intro h' hc; simp at hc
  · intro h' c sp rp hc
    simp only [Call.RCWriteFrame.injEq] at hc
    obtain ⟨rfl, rfl, rfl, rfl⟩ := hc
    exact ⟨rfl, rfl, rfl, ⟨l, w, rfl, hw⟩, started_open_mem hl.2⟩

theorem listDevices_idle (env : Env) (count : Int) (fuel : Nat) (i : Int) (s : St)
    (hs : Idle (apiCalls s.trace)) :
    Idle (apiCalls (listDevices env count fuel i s).st.trace) := by
  induction fuel generalizing i s with
  | zero =>
    unfold listDevices
    split <;> exact hs
  | succ n ih =>
    unfold listDevices
    split
    · simp only []
      split
      · simpa [Outcome.st] using idle_snoc hs (.RCDeviceID i 256) _ rfl
      · apply ih
        simpa using idle_snoc hs (.RCDeviceID i 256) _ rfl
    · exact hs

theorem frameLoop_running (env : Env) (h : Int) (fuel : Nat) (fc : Int) (s : St)
    (hs : Running h (apiCalls s.trace)) :
    Safe (apiCalls (frameLoop env h fuel fc s).st.trace) ∧
      ∀ s', frameLoop env h fuel fc s = .next s' → Running h (apiCalls s'.trace) := by
  induction fuel generalizing fc s with
  | zero =>
    unfold frameLoop
    exact ⟨hs.1, by simp⟩
  | succ n ih =>
    unfold frameLoop
    simp only []
    have hw := running_wait hs (env.ret s.calls)
    split
    · exact ⟨by simpa [Outcome.st] using hw.1, by simp⟩
    · rename_i hret
      have hwr := running_write hw (not_lt.mp hret) (env.ret (s.calls + 1))
      split
      · exact ⟨by simpa [Outcome.st] using hwr.1, by simp⟩
      · split
        · apply ih
          simpa using hwr
        · refine ⟨by simpa [Outcome.st] using hwr.1, ?_⟩
          intro s' hs'
          simp only [Outcome.next.injEq] at hs'
          subst hs'
          simpa using hwr

theorem main_safe (env : Env) : Safe (apiCalls (main env).trace) := by
  unfold main
  dsimp only [calls_call, calls_print]
  have h1 : Idle (apiCalls (St.call env ⟨0, []⟩ .RCInit).trace) := by
    simpa [apiCalls] using idle_snoc idle_nil .RCInit (env.ret 0) rfl
  by_cases c1 : env.ret 0 < 0
  · rw [if_pos c1]; simpa using h1.1
  rw [if_neg c1]
  by_cases c2 : env.ret 0 < RCAPI_VERSION
  · rw [if_pos c2]; simpa using h1.1
  rw [if_neg c2]
  have h2 := idle_snoc h1 .RCEnumerateDevices (env.ret 1) rfl
  by_cases c3 : env.ret (0 + 1) < 0
  · rw [if_pos c3]; simpa using h2.1
  rw [if_neg c3]
  by_cases c4 : env.ret (0 + 1) = 0
  · rw [if_pos c4]; simpa using h2.1
  rw [if_neg c4]
  have h3 := listDevices_idle env (env.ret (0 + 1)) (env.ret (0 + 1)).toNat 0 _
    (by simpa using h2 : Idle (apiCalls ((St.call env ((St.call env ⟨0, []⟩ .RCInit).print
      (.apiVersion (env.ret 0 / 256) (env.ret 0 % 256))) .RCEnumerateDevices).print
      (.found (env.ret (0 + 1)))).trace))
  generalize listDevices env (env.ret (0 + 1)) (env.ret (0 + 1)).toNat 0 _ = o at h3 ⊢
  cases o with
  | stuck s => exact h3.1
  | ret s code => exact h3.1
  | next s =>
  dsimp only
  simp only [Outcome.st] at h3
  have h4 := idle_snoc h3 (.RCDeviceID 0 256) (env.ret s.calls) rfl
  by_cases c5 : env.ret s.calls < 0
  · rw [if_pos c5]; simpa using h4.1
  rw [if_neg c5]
  have h5 := idle_snoc h4 (.RCOpenDevice (env.deviceId s.calls)) (env.ret (s.calls + 1)) rfl
  by_cases c6 : env.ret (s.calls + 1) < 0
  · rw [if_pos c6]; simpa using h5.1
  rw [if_neg c6]
  have h6 := idle_snoc h5 (.RCStartOutput (env.ret (s.calls + 1))) (env.ret (s.calls + 1 + 1)) rfl
  by_cases c7 : env.ret (s.calls + 1 + 1) < RCOk
  · rw [if_pos c7]; simpa using h6.1
  rw [if_neg c7]
  have h7 : Running (env.ret (s.calls + 1)) (apiCalls (St.call env
      ((St.call env ((St.call env (s.print .newline) (.RCDeviceID 0 256)).print
        (.opening (env.deviceId s.calls))) (.RCOpenDevice (env.deviceId s.calls))).print
        .starting) (.RCStartOutput (env.ret (s.calls + 1)))).trace) := by
    refine ⟨by simpa using h6.1, ⟨⟨apiCalls s.trace ++ [⟨.RCDeviceID 0 256, env.ret s.calls⟩], [], [],
      env.deviceId s.calls, env.ret (s.calls + 1 + 1), ?_, not_lt.mp c6, not_lt.mp c7⟩, ?_⟩⟩
    · simp
    · simpa using h6.2
  have h8 := frameLoop_running env _ 1000 1 _ h7
  generalize frameLoop env (env.ret (s.calls + 1)) 1000 1 _ = o at h8 ⊢
  cases o with
  | stuck s' => exact h8.1
  | ret s' code => exact h8.1
  | next s' =>
  dsimp only
  have h9 := h8.2 s' rfl
  have h10 : Safe (apiCalls s'.trace ++ [⟨.RCStopOutput (env.ret (s.calls + 1)), env.ret s'.calls⟩]) :=
    safe_snoc h9.1 (by simp [InSession, WaitThenWrite])
  by_cases c8 : env.ret s'.calls < RCOk
  · rw [if_pos c8]; simpa using h10
  rw [if_neg c8]
  have h11 : Safe (apiCalls s'.trace ++ [⟨.RCStopOutput (env.ret (s.calls + 1)), env.ret s'.calls⟩]
      ++ [⟨.RCCloseDevice (env.ret (s.calls + 1)), env.ret (s'.calls + 1)⟩]) := by
    refine safe_snoc h10 ⟨⟨by simp, ?_⟩, by simp [WaitThenWrite]⟩
    intro h hc
    simp only [Call.RCCloseDevice.injEq] at hc
    subst hc
    exact ⟨_, [], _, rfl, not_lt.mp c8, by simp⟩
  by_cases c9 : env.ret (s'.calls + 1) < RCOk
  · rw [if_pos c9]; simpa using h11
  rw [if_neg c9]
  have h12 := safe_snoc h11 (quiet_ok _ .RCExit (env.ret (s'.calls + 1 + 1)) rfl)
  by_cases c10 : env.ret (s'.calls + 1 + 1) < RCOk
  · rw [if_pos c10]; simpa using h12
  · rw [if_neg c10]; simpa using h12

/-! ## Properties of the trace of `main`, for every environment -/

/-- C2: in the API calls of `main`, whatever the calls return, every `RCWaitForReady` and
every `RCWriteFrame` call on a handle `h` comes after an `RCOpenDevice` that returned `h`,
not negative, and a later `RCStartOutput h` that returned at least `RCOk`, and no
`RCStopOutput` or `RCCloseDevice` call comes before it; and every `RCCloseDevice h` call
comes after an `RCStopOutput h` that returned at least `RCOk`, with no `RCStartOutput`
call in between. -/
theorem session_respected (env : Env) (pre post : List ApiCall) (e : ApiCall)
    (hsplit : apiCalls (main env).trace = pre ++ e :: post) :
    (∀ h, ((∃ t, e.call = .RCWaitForReady h t) ∨ (∃ c s r, e.call = .RCWriteFrame h c s r)) →
      (∃ a b c id r, pre = a ++ ⟨.RCOpenDevice id, h⟩ :: (b ++ ⟨.RCStartOutput h, r⟩ :: c) ∧
        0 ≤ h ∧ RCOk ≤ r) ∧
      ∀ x ∈ pre, ∀ h', x.call ≠ .RCStopOutput h' ∧ x.call ≠ .RCCloseDevice h') ∧
    (∀ h, e.call = .RCCloseDevice h →
      ∃ a b r, pre = a ++ ⟨.RCStopOutput h, r⟩ :: b ∧ RCOk ≤ r ∧
        ∀ x ∈ b, ∀ h', x.call ≠ .RCStartOutput h') :=
  (main_safe env pre e post hsplit).1

/-- C2 at the `RCWaitForReady` call of the run `envWriteFails`. -/
theorem session_respected_witness :
    apiCalls (main envWriteFails).trace =
      [⟨.RCInit, 0x0106⟩, ⟨.RCEnumerateDevices, 1⟩, ⟨.RCDeviceID 0 256, 0⟩,
        ⟨.RCDeviceID 0 256, 0⟩, ⟨.RCOpenDevice demoDeviceId, 7⟩,
        ⟨.RCStartOutput 7, 0⟩] ++
      ⟨.RCWaitForReady 7 (-1), 1⟩ :: [⟨.RCWriteFrame 7 200 20000 0, -5⟩] ∧
    ((∃ a b c id r, [(⟨.RCInit, 0x0106⟩ : ApiCall), ⟨.RCEnumerateDevices, 1⟩,
        ⟨.RCDeviceID 0 256, 0⟩, ⟨.RCDeviceID 0 256, 0⟩,
        ⟨.RCOpenDevice demoDeviceId, 7⟩, ⟨.RCStartOutput 7, 0⟩] =
          a ++ ⟨.RCOpenDevice id, 7⟩ :: (b ++ ⟨.RCStartOutput 7, r⟩ :: c) ∧
        (0 : Int) ≤ 7 ∧ RCOk ≤ r) ∧
      ∀ x ∈ [(⟨.RCInit, 0x0106⟩ : ApiCall), ⟨.RCEnumerateDevices, 1⟩,
        ⟨.RCDeviceID 0 256, 0⟩, ⟨.RCDeviceID 0 256, 0⟩,
        ⟨.RCOpenDevice demoDeviceId, 7⟩, ⟨.RCStartOutput 7, 0⟩],
        ∀ h', x.call ≠ .RCStopOutput h' ∧ x.call ≠ .RCCloseDevice h') :=
  ⟨by decide, (session_respected envWriteFails _ [⟨.RCWriteFrame 7 200 20000 0, -5⟩]
    ⟨.RCWaitForReady 7 (-1), 1⟩ (by decide)).1 7 (Or.inl ⟨-1, rfl⟩)⟩

/-- C6: in the API calls of `main`, whatever the calls return, every `RCWriteFrame` call
has 200 points, the speed 20000 and the repeat count 0, is directly preceded by a call
`RCWaitForReady(handle, -1)` on its own handle that returned at least `RCOk`, and its
handle is one that an earlier `RCOpenDevice` call returned. -/
theorem write_after_wait (env : Env) (pre post : List ApiCall) (e : ApiCall)
    (h : Int) (c sp rp : Nat)
    (hsplit : apiCalls (main env).trace = pre ++ e :: post)
    (he : e.call = .RCWriteFrame h c sp rp) :
    c = 200 ∧ sp = 20000 ∧ rp = 0 ∧
    (∃ pre' w, pre = pre' ++ [⟨.RCWaitForReady h (-1), w⟩] ∧ RCOk ≤ w) ∧
    ∃ id, (⟨.RCOpenDevice id, h⟩ : ApiCall) ∈ pre :=
  (main_safe env pre e post hsplit).2 h c sp rp he

/-- C6 at the `RCWriteFrame` call of the run `envWriteFails`. -/
theorem write_after_wait_witness :
    apiCalls (main envWriteFails).trace =
      [⟨.RCInit, 0x0106⟩, ⟨.RCEnumerateDevices, 1⟩, ⟨.RCDeviceID 0 256, 0⟩,
        ⟨.RCDeviceID 0 256, 0⟩, ⟨.RCOpenDevice demoDeviceId, 7⟩,
        ⟨.RCStartOutput 7, 0⟩, ⟨.RCWaitForReady 7 (-1), 1⟩] ++
      ⟨.RCWriteFrame 7 200 20000 0, -5⟩ :: [] ∧
    (200 = 200 ∧ 20000 = 20000 ∧ 0 = 0 ∧
      (∃ pre' w, [(⟨.RCInit, 0x0106⟩ : ApiCall), ⟨.RCEnumerateDevices, 1⟩,
        ⟨.RCDeviceID 0 256, 0⟩, ⟨.RCDeviceID 0 256, 0⟩,
        ⟨.RCOpenDevice demoDeviceId, 7⟩, ⟨.RCStartOutput 7, 0⟩,
        ⟨.RCWaitForReady 7 (-1), 1⟩] = pre' ++ [⟨.RCWaitForReady 7 (-1), w⟩] ∧ RCOk ≤ w) ∧
      ∃ id, (⟨.RCOpenDevice id, 7⟩ : ApiCall) ∈
        [(⟨.RCInit, 0x0106⟩ : ApiCall), ⟨.RCEnumerateDevices, 1⟩,
        ⟨.RCDeviceID 0 256, 0⟩, ⟨.RCDeviceID 0 256, 0⟩,
        ⟨.RCOpenDevice demoDeviceId, 7⟩, ⟨.RCStartOutput 7, 0⟩,
        ⟨.RCWaitForReady 7 (-1), 1⟩]) :=
  ⟨by decide, write_after_wait envWriteFails _ [] ⟨.RCWriteFrame 7 200 20000 0, -5⟩
    7 200 20000 0 (by decide) rfl⟩


/-! ## Termination and the run without failures -/

theorem listDevices_not_stuck (env : Env) (count : Int) (fuel : Nat) (i : Int) (s : St)
    (hfuel : count - i ≤ fuel) (s' : St) : listDevices env count fuel i s ≠ .stuck s' := by
  induction fuel generalizing i s with
  | zero =>
    unfold listDevices
    have : ¬ i < count := by omega
    simp [this]
  | succ n ih =>
    unfold listDevices
    dsimp only
    split
    · split
      · simp
      · exact ih _ _ (by omega)
    · simp

theorem frameLoop_not_stuck (env : Env) (h : Int) (fuel : Nat) (fc : Int) (s : St)
    (hfc : fc ≤ 1000) (hfuel : 1001 ≤ fc + fuel) (s' : St) :
    frameLoop env h fuel fc s ≠ .stuck s' := by
  induction fuel generalizing fc s with
  | zero => omega
  | succ n ih =>
    unfold frameLoop
    dsimp only
    split
    · simp
    · split
      · simp
      · split
        · exact ih _ _ (by omega) (by omega)
        · simp

/-- The embedding of `main` never uses up its recursion bound: every run returns. -/
theorem main_returns (env : Env) : ∃ code, (main env).exit = some code := by
  unfold main
  dsimp only [calls_call, calls_print]
  by_cases c1 : env.ret 0 < 0
  · rw [if_pos c1]; exact ⟨_, rfl⟩
  rw [if_neg c1]
  by_cases c2 : env.ret 0 < RCAPI_VERSION
  · rw [if_pos c2]; exact ⟨_, rfl⟩
  rw [if_neg c2]
  by_cases c3 : env.ret (0 + 1) < 0
  · rw [if_pos c3]; exact ⟨_, rfl⟩
  rw [if_neg c3]
  by_cases c4 : env.ret (0 + 1) = 0
  · rw [if_pos c4]; exact ⟨_, rfl⟩
  rw [if_neg c4]
  have h3 := listDevices_not_stuck env (env.ret (0 + 1)) (env.ret (0 + 1)).toNat 0
    ((St.call env ((St.call env ⟨0, []⟩ .RCInit).print
      (.apiVersion (env.ret 0 / 256) (env.ret 0 % 256))) .RCEnumerateDevices).print
      (.found (env.ret (0 + 1)))) (by omega)
  generalize listDevices env (env.ret (0 + 1)) (env.ret (0 + 1)).toNat 0 _ = o at h3 ⊢
  cases o with
  | stuck s => exact absurd rfl (h3 s)
  | ret s code => exact ⟨_, rfl⟩
  | next s =>
  dsimp only
  by_cases c5 : env.ret s.calls < 0
  · rw [if_pos c5]; exact ⟨_, rfl⟩
  rw [if_neg c5]
  by_cases c6 : env.ret (s.calls + 1) < 0
  · rw [if_pos c6]; exact ⟨_, rfl⟩
  rw [if_neg c6]
  by_cases c7 : env.ret (s.calls + 1 + 1) < RCOk
  · rw [if_pos c7]; exact ⟨_, rfl⟩
  rw [if_neg c7]
  have h8 := frameLoop_not_stuck env (env.ret (s.calls + 1)) 1000 1
    (St.call env ((St.call env ((St.call env (s.print .newline) (.RCDeviceID 0 256)).print
        (.opening (env.deviceId s.calls))) (.RCOpenDevice (env.deviceId s.calls))).print
        .starting) (.RCStartOutput (env.ret (s.calls + 1)))) (by decide) (by decide)
  generalize frameLoop env (env.ret (s.calls + 1)) 1000 1 _ = o at h8 ⊢
  cases o with
  | stuck s' => exact absurd rfl (h8 s')
  | ret s' code => exact ⟨_, rfl⟩
  | next s' =>
  dsimp only
  by_cases c8 : env.ret s'.calls < RCOk
  · rw [if_pos c8]; exact ⟨_, rfl⟩
  rw [if_neg c8]
  by_cases c9 : env.ret (s'.calls + 1) < RCOk
  · rw [if_pos c9]; exact ⟨_, rfl⟩
  rw [if_neg c9]
  by_cases c10 : env.ret (s'.calls + 1 + 1) < RCOk
  · rw [if_pos c10]; exact ⟨_, rfl⟩
  · rw [if_neg c10]; exact ⟨_, rfl⟩

theorem listDevices_ok (env : Env) (count : Int) (n : Nat) (i : Int) (s : St)
    (hret : ∀ j, j < n → 0 ≤ env.ret (s.calls + j)) (hcount : count = i + n) :
    listDevices env count n i s = .next ⟨s.calls + n, s.trace ++
      (List.range n).flatMap (fun j =>
        [Event.call (.RCDeviceID (i + j) 256) (env.ret (s.calls + j)),
          Event.print (.deviceLine (i + j) (env.deviceId (s.calls + j)))])⟩ := by
  induction n generalizing i s with
  | zero =>
    unfold listDevices
    have : ¬ i < count := by omega
    simp [this]
  | succ n ih =>
    unfold listDevices
    dsimp only
    have h1 : i < count := by omega
    have h2 : ¬ env.ret s.calls < 0 := not_lt.mpr (by simpa using hret 0 (by omega))
    rw [if_pos h1, if_neg h2, ih]
    · simp only [calls_print, calls_call, St.print, St.call, List.range_succ_eq_map,
        List.flatMap_cons, List.flatMap_map, Outcome.next.injEq, St.mk.injEq]
      refine ⟨by omega, ?_⟩
      simp only [List.append_assoc, List.append_cancel_left_eq, List.singleton_append,
        List.cons_append, List.nil_append, Nat.cast_zero, add_zero, List.cons.injEq, true_and]
      congr 1
      funext j
      simp only [Function.comp, Nat.succ_eq_add_one, Nat.cast_add, Nat.cast_one]
      have e1 : s.calls + 1 + j = s.calls + (j + 1) := by omega
      have e2 : i + 1 + (j : Int) = i + ((j : Int) + 1) := by omega
      rw [e1, e2]
    · intro j hj
      have := hret (j + 1) (by omega)
      simpa [Nat.add_assoc, Nat.add_comm 1 j] using this
    · push_cast at hcount ⊢
      omega

theorem frameLoop_ok (env : Env) (h : Int) (n : Nat) (fc : Int) (s : St)
    (hret : ∀ j, j < 2 * (n + 1) → RCOk ≤ env.ret (s.calls + j)) (hfc : fc + n = 1000) :
    frameLoop env h (n + 1) fc s = .next ⟨s.calls + 2 * (n + 1), s.trace ++
      (List.range (n + 1)).flatMap (fun j =>
        [Event.call (.RCWaitForReady h (-1)) (env.ret (s.calls + 2 * j)),
          Event.print (.showingFrame (fc + j)),
          Event.call (.RCWriteFrame h 200 20000 0) (env.ret (s.calls + 2 * j + 1))])⟩ := by
  induction n generalizing fc s with
  | zero =>
    unfold frameLoop
    dsimp only [calls_call, calls_print]
    have h1 : ¬ env.ret s.calls < RCOk := not_lt.mpr (by simpa using hret 0 (by omega))
    have h2 : ¬ env.ret (s.calls + 1) < RCOk := not_lt.mpr (hret 1 (by omega))
    have h3 : ¬ fc < 1000 := by omega
    rw [if_neg h1, if_neg h2, if_neg h3]
    simp [St.print, St.call, pointCount, List.range_succ_eq_map]
  | succ n ih =>
    unfold frameLoop
    dsimp only [calls_call, calls_print]
    have h1 : ¬ env.ret s.calls < RCOk := not_lt.mpr (by simpa using hret 0 (by omega))
    have h2 : ¬ env.ret (s.calls + 1) < RCOk := not_lt.mpr (hret 1 (by omega))
    have h3 : fc < 1000 := by omega
    rw [if_neg h1, if_neg h2, if_pos h3, ih]
    · rw [List.range_succ_eq_map (n + 1)]
      simp only [calls_print, calls_call, St.print, St.call, 
        List.flatMap_cons, List.flatMap_map, Outcome.next.injEq, St.mk.injEq]
      refine ⟨by omega, ?_⟩
      simp only [List.append_assoc, List.append_cancel_left_eq, List.singleton_append,
        List.cons_append, List.nil_append, Nat.cast_zero, add_zero, mul_zero, pointCount,
        List.cons.injEq, true_and]
      congr 1
      funext j
      simp only [Function.comp, Nat.succ_eq_add_one, Nat.cast_add, Nat.cast_one]
      have e1 : s.calls + 1 + 1 + 2 * j = s.calls + 2 * (j + 1) := by omega
      have e2 : fc + 1 + (j : Int) = fc + ((j : Int) + 1) := by omega
      rw [e1, e2]
    · intro j hj
      have := hret (j + 2) (by omega)
      simpa [Nat.add_assoc, Nat.add_comm 2 j] using this
    · push_cast at hfc ⊢
      omega

theorem main_happy_eq (env : Env) (hinit : RCAPI_VERSION ≤ env.ret 0)
    (hcount : 1 ≤ env.ret 1) (hlater : ∀ k, 2 ≤ k → 0 ≤ env.ret k) :
    main env = ⟨
      ([Event.call .RCInit (env.ret 0),
        Event.print (.apiVersion (env.ret 0 / 256) (env.ret 0 % 256)),
        Event.call .RCEnumerateDevices (env.ret 1),
        Event.print (.found (env.ret 1))] ++
      (List.range (env.ret 1).toNat).flatMap (fun j =>
        [Event.call (.RCDeviceID j 256) (env.ret (j + 2)),
          Event.print (.deviceLine j (env.deviceId (j + 2)))]) ++
      [Event.print .newline,
        Event.call (.RCDeviceID 0 256) (env.ret ((env.ret 1).toNat + 2)),
        Event.print (.opening (env.deviceId ((env.ret 1).toNat + 2))),
        Event.call (.RCOpenDevice (env.deviceId ((env.ret 1).toNat + 2)))
          (env.ret ((env.ret 1).toNat + 3)),
        Event.print .starting,
        Event.call (.RCStartOutput (env.ret ((env.ret 1).toNat + 3)))
          (env.ret ((env.ret 1).toNat + 4))]) ++
      (List.range 1000).flatMap (fun j =>
        [Event.call (.RCWaitForReady (env.ret ((env.ret 1).toNat + 3)) (-1))
            (env.ret ((env.ret 1).toNat + 5 + 2 * j)),
          Event.print (.showingFrame ((j : Int) + 1)),
          Event.call (.RCWriteFrame (env.ret ((env.ret 1).toNat + 3)) 200 20000 0)
            (env.ret ((env.ret 1).toNat + 5 + 2 * j + 1))]) ++
      [Event.print .stopping,
        Event.call (.RCStopOutput (env.ret ((env.ret 1).toNat + 3)))
          (env.ret ((env.ret 1).toNat + 2005)),
        Event.print .closing,
        Event.call (.RCCloseDevice (env.ret ((env.ret 1).toNat + 3)))
          (env.ret ((env.ret 1).toNat + 2006)),
        Event.call .RCExit (env.ret ((env.ret 1).toNat + 2007))],
      some 0⟩ := by
  have hv : (0 : Int) ≤ RCAPI_VERSION := by decide
  have c1 : ¬ env.ret 0 < 0 := by omega
  have c2 : ¬ env.ret 0 < RCAPI_VERSION := by omega
  have c3 : ¬ env.ret (0 + 1) < 0 := by simp only [zero_add]; omega
  have c4 : ¬ env.ret (0 + 1) = 0 := by simp only [zero_add]; omega
  have hl : ∀ k, 2 ≤ k → ¬ env.ret k < 0 := fun k hk => not_lt.mpr (hlater k hk)
  have hl' : ∀ k, 2 ≤ k → ¬ env.ret k < RCOk := hl
  unfold main
  dsimp only [calls_call, calls_print]
  rw [if_neg c1, if_neg c2, if_neg c3, if_neg c4]
  rw [listDevices_ok env (env.ret (0 + 1)) (env.ret (0 + 1)).toNat 0 _
    (fun j _ => hlater _ (by simp)) (by simp only [zero_add]; omega)]
  dsimp only [calls_call, calls_print]
  rw [if_neg (hl _ ?_), if_neg (hl _ ?_), if_neg (hl' _ ?_)]
  rw [frameLoop_ok env _ 999 1 _ (fun j _ => hlater _ (by simp; omega)) (by norm_num)]
  dsimp only [calls_call, calls_print]
  rw [if_neg (hl' _ ?_), if_neg (hl' _ ?_), if_neg (hl' _ ?_)]
  simp only [St.call, St.print, List.append_assoc, List.nil_append, List.cons_append, 
    List.singleton_append]
  · simp only [zero_add]
    generalize (env.ret 1).toNat = N
    have a1 : ∀ j : Nat, 1 + 1 + j = j + 2 := fun j => by omega
    have a2 : N + 2 + 1 = N + 3 := by omega
    have a3 : N + 3 + 1 = N + 4 := by omega
    have a4 : N + 4 + 1 = N + 5 := by omega
    have a5 : N + 5 + 2 * (999 + 1) = N + 2005 := by omega
    have a6 : N + 2005 + 1 = N + 2006 := by omega
    have a7 : N + 2006 + 1 = N + 2007 := by omega
    have b1 : ∀ j : Nat, (1 : Int) + (j : Int) = (j : Int) + 1 := fun j => by omega
    simp only [a1, a2, a3, a4, a5, a6, a7, b1]
  all_goals omega

theorem calledFns_append (l₁ l₂ : List Event) :
    calledFns (l₁ ++ l₂) = calledFns l₁ ++ calledFns l₂ := by
  simp [calledFns, apiCalls_append]

theorem calledFns_flatMap {α : Type} (l : List α) (g : α → List Event) :
    calledFns (l.flatMap g) = l.flatMap (fun a => calledFns (g a)) := by
  induction l with
  | nil => rfl
  | cons a l ih => simp [List.flatMap_cons, calledFns_append, ih]

theorem count_flatMap_const {α β : Type} [DecidableEq β] (l : List α) (g : α → List β)
    (b : β) (c : Nat) (h : ∀ a, (g a).count b = c) :
    (l.flatMap g).count b = l.length * c := by
  induction l with
  | nil => simp
  | cons a l ih => simp [List.flatMap_cons, List.count_append, ih, h, Nat.succ_mul, Nat.add_comm]

/-- C1: when `RCInit` returns at least `RCAPI_VERSION`, `RCEnumerateDevices` at least 1 and
every later call a non-negative value, `main` returns 0 and its trace is: events `pre` with
no `RCWriteFrame`, `RCStopOutput`, `RCCloseDevice` or `RCExit` call; then, for
`frameCounter` = 1, ..., 1000 in turn, a wait, the line `Showing frame frameCounter` and an
`RCWriteFrame` call; then `RCStopOutput`, `RCCloseDevice`, `RCExit`, in this order.  So
`RCWriteFrame` is called exactly 1000 times and each of the last three exactly once. -/
theorem main_happy (env : Env) (hinit : RCAPI_VERSION ≤ env.ret 0)
    (hcount : 1 ≤ env.ret 1) (hlater : ∀ k, 2 ≤ k → 0 ≤ env.ret k) :
    (main env).exit = some 0 ∧
    (∃ pre : List Event,
      (∀ f ∈ calledFns pre, f ≠ .RCWriteFrame ∧ f ≠ .RCStopOutput ∧ f ≠ .RCCloseDevice ∧
        f ≠ .RCExit) ∧
      (main env).trace = pre ++
        (List.range 1000).flatMap (fun j =>
          [Event.call (.RCWaitForReady (env.ret ((env.ret 1).toNat + 3)) (-1))
              (env.ret ((env.ret 1).toNat + 5 + 2 * j)),
            Event.print (.showingFrame ((j : Int) + 1)),
            Event.call (.RCWriteFrame (env.ret ((env.ret 1).toNat + 3)) 200 20000 0)
              (env.ret ((env.ret 1).toNat + 5 + 2 * j + 1))]) ++
        [Event.print .stopping,
          Event.call (.RCStopOutput (env.ret ((env.ret 1).toNat + 3)))
            (env.ret ((env.ret 1).toNat + 2005)),
          Event.print .closing,
          Event.call (.RCCloseDevice (env.ret ((env.ret 1).toNat + 3)))
            (env.ret ((env.ret 1).toNat + 2006)),
          Event.call .RCExit (env.ret ((env.ret 1).toNat + 2007))]) ∧
    (calledFns (main env).trace).count .RCWriteFrame = 1000 ∧
    (calledFns (main env).trace).count .RCStopOutput = 1 ∧
    (calledFns (main env).trace).count .RCCloseDevice = 1 ∧
    (calledFns (main env).trace).count .RCExit = 1 := by
  have hpre : ∀ f ∈ calledFns
      ([Event.call .RCInit (env.ret 0),
        Event.print (.apiVersion (env.ret 0 / 256) (env.ret 0 % 256)),
        Event.call .RCEnumerateDevices (env.ret 1),
        Event.print (.found (env.ret 1))] ++
      (List.range (env.ret 1).toNat).flatMap (fun j =>
        [Event.call (.RCDeviceID j 256) (env.ret (j + 2)),
          Event.print (.deviceLine j (env.deviceId (j + 2)))]) ++
      [Event.print .newline,
        Event.call (.RCDeviceID 0 256) (env.ret ((env.ret 1).toNat + 2)),
        Event.print (.opening (env.deviceId ((env.ret 1).toNat + 2))),
        Event.call (.RCOpenDevice (env.deviceId ((env.ret 1).toNat + 2)))
          (env.ret ((env.ret 1).toNat + 3)),
        Event.print .starting,
        Event.call (.RCStartOutput (env.ret ((env.ret 1).toNat + 3)))
          (env.ret ((env.ret 1).toNat + 4))]),
      f ≠ .RCWriteFrame ∧ f ≠ .RCStopOutput ∧ f ≠ .RCCloseDevice ∧ f ≠ .RCExit := by
    intro f hf
    simp only [calledFns_append, calledFns_flatMap, List.mem_append, List.mem_flatMap] at hf
    rcases hf with (hf | ⟨j, _, hf⟩) | hf
    · simp [calledFns, apiCalls, Call.fn] at hf
      rcases hf with hf | hf <;> subst hf <;> decide
    · simp [calledFns, apiCalls, Call.fn] at hf
      subst hf; decide
    · simp [calledFns, apiCalls, Call.fn] at hf
      rcases hf with hf | hf | hf <;> subst hf <;> decide
  have hcnt : ∀ f, f ≠ Fn.RCInit → f ≠ .RCEnumerateDevices → f ≠ .RCDeviceID →
      f ≠ .RCOpenDevice → f ≠ .RCStartOutput → f ≠ .RCWaitForReady →
      (calledFns (main env).trace).count f =
        1000 * ([Fn.RCWriteFrame].count f) +
          [Fn.RCStopOutput, .RCCloseDevice, .RCExit].count f := by
    intro f h1 h2 h3 h4 h5 h6
    rw [main_happy_eq env hinit hcount hlater]
    simp only [calledFns_append, calledFns_flatMap, List.count_append]
    rw [count_flatMap_const _ _ f 0, count_flatMap_const _ _ f ([Fn.RCWriteFrame].count f)]
    · simp [calledFns, apiCalls, Call.fn, List.count_cons, h1, h2, h3, h4, h5, Ne.symm h1,
        Ne.symm h2, Ne.symm h3, Ne.symm h4, Ne.symm h5]
    · intro j
      simp [calledFns, apiCalls, Call.fn, List.count_cons, Ne.symm h6]
    · intro j
      simp [calledFns, apiCalls, Call.fn, List.count_cons, Ne.symm h3]
  refine ⟨by rw [main_happy_eq env hinit hcount hlater], ⟨_, hpre, ?_⟩, ?_, ?_, ?_, ?_⟩
  · rw [main_happy_eq env hinit hcount hlater]
  · rw [hcnt _ (by decide) (by decide) (by decide) (by decide) (by decide) (by decide)]; rfl
  · rw [hcnt _ (by decide) (by decide) (by decide) (by decide) (by decide) (by decide)]; rfl
  · rw [hcnt _ (by decide) (by decide) (by decide) (by decide) (by decide) (by decide)]; rfl
  · rw [hcnt _ (by decide) (by decide) (by decide) (by decide) (by decide) (by decide)]; rfl


/-- C1 at the run `envAllOk`, in which no call fails. -/
theorem main_happy_witness :
    RCAPI_VERSION ≤ envAllOk.ret 0 ∧ 1 ≤ envAllOk.ret 1 ∧
    (∀ k, 2 ≤ k → 0 ≤ envAllOk.ret k) ∧
    (main envAllOk).exit = some 0 ∧
    (calledFns (main envAllOk).trace).count .RCWriteFrame = 1000 ∧
    (calledFns (main envAllOk).trace).count .RCStopOutput = 1 ∧
    (calledFns (main envAllOk).trace).count .RCCloseDevice = 1 ∧
    (calledFns (main envAllOk).trace).count .RCExit = 1 :=
  have h : ∀ k, 2 ≤ k → 0 ≤ envAllOk.ret k := by
    intro k _
    simp only [envAllOk]
    split_ifs <;> decide
  ⟨by decide, by decide, h, (main_happy envAllOk (by decide) (by decide) h).1,
    (main_happy envAllOk (by decide) (by decide) h).2.2⟩

/-! ## Runs that return early -/

/-- C4, which the code does not meet: in the run `envNoDevices`, `RCInit` succeeds
(returns `0x0106`), `RCEnumerateDevices` returns 0, and `main` returns 0 after two API
calls, none of them `RCExit`; in the run `envOldLibrary`, `RCInit` succeeds with the
version `0x0105` and `main` returns -2 after that single call. -/
theorem early_return_skips_exit :
    (0 ≤ envNoDevices.ret 0 ∧
      main envNoDevices =
        ⟨[.call .RCInit 0x0106, .print (.apiVersion 1 6), .call .RCEnumerateDevices 0,
          .print .noDevices], some 0⟩ ∧
      Fn.RCExit ∉ calledFns (main envNoDevices).trace) ∧
    (0 ≤ envOldLibrary.ret 0 ∧
      main envOldLibrary = ⟨[.call .RCInit 0x0105, .print .versionTooOld], some (-2)⟩ ∧
      Fn.RCExit ∉ calledFns (main envOldLibrary).trace) := by
  decide

end RayComposer
